import Mathlib

/-!
# Verification of the FDA submission tracker merge/ETL step and dashboard load

This development is a shallow embedding of the two scripts of the repository:

* `src/data/merge_fda_data.py` (the "Merger"): loads three tab-separated tables
  (Submissions, Applications, Products), coerces the join key `Application_No`
  to text (`astype(str)`, which renders a missing value as the literal string
  `"nan"`), aggregates Products to one row per key by joining the non-missing
  values of `Form`/`Strength`/`DrugName` with `", "`, left-joins Submissions
  with Applications and then with the aggregated Products, remaps
  `Submission_Type` codes, fills missing `Form` with `""` and rewrites `";"`
  to `" / "`, and writes the result; every exception is caught at top level,
  a message is printed, and the script then ends normally.

* `src/app.py` (the "Dashboard"): its `load_data` drops rows with a missing
  parsed `Submission_Date`, remaps `Status` and `Submission_Type`, fills
  missing `Sponsor`/`DrugName` with `"Unknown"`, and derives
  `Submission_Year`; the sidebar offers truncated Sponsor/DrugName
  multi-selects whose defaults restrict the filtered set.

Tables are embedded as lists of rows; a pandas missing value (`NaN`) in a
field is embedded as `none`.
-/

/-- A row of the Submissions table after column selection and renaming
(`sub` in the script).  `app` is the `Application_No` key before the
`astype(str)` coercion; `none` models a missing (`NaN`) key. -/
structure SubRowIn where
  app : Option String
  subType : String
  subNo : String
  status : String
  date : String
  reviewPriority : String
deriving DecidableEq, Repr

/-- A row of the Applications table after column selection and renaming
(`apps` in the script). -/
structure AppRowIn where
  app : Option String
  sponsor : Option String
deriving DecidableEq, Repr

/-- A row of the Products table after column selection and renaming
(`prods` in the script, before the `groupby` aggregation). -/
structure ProdRowIn where
  app : Option String
  form : Option String
  strength : Option String
  drugName : Option String
deriving DecidableEq, Repr

/-- A row of the aggregated Products table (the result of
`prods.groupby("Application_No").agg(...).reset_index()`): all three value
fields are strings produced by `", ".join`. -/
structure AggRow where
  app : String
  form : String
  strength : String
  drugName : String
deriving DecidableEq, Repr

/-- `astype(str)` applied to the `Application_No` key: a missing value
(`NaN`) is rendered as the literal string `"nan"`; a present value keeps its
text. -/
def coerceKey : Option String → String
  | none => "nan"
  | some s => s

/-- `", ".join(...)` from the aggregation lambdas. -/
def joinComma (l : List String) : String :=
  String.intercalate ", " l

/-- Lexicographic strict order on character lists, comparing characters by
code point (the order Python uses to compare the string keys that
`groupby` sorts by). -/
def lexLt : List Char → List Char → Bool
  | _, [] => false
  | [], _ :: _ => true
  | a :: as, b :: bs =>
    if a.toNat < b.toNat then true
    else if b.toNat < a.toNat then false
    else lexLt as bs

/-- Lexicographic strict order on strings by code point. -/
def strLt (s t : String) : Bool :=
  lexLt s.data t.data

/-- Insert a key into a strictly sorted list of distinct keys, keeping it
sorted and duplicate-free (the ordered-unique-key behaviour of pandas
`groupby`, which sorts group keys). -/
def insOrd (s : String) : List String → List String
  | [] => [s]
  | a :: t =>
    if s = a then a :: t
    else if strLt s a then s :: a :: t
    else a :: insOrd s t

/-- The sorted list of distinct keys of a list (the group keys produced by
`groupby("Application_No")`, which sorts groups by key). -/
def sortedDistinct : List String → List String
  | [] => []
  | a :: t => insOrd a (sortedDistinct t)

/-- The group of Products rows for a key `k`: `prods` filtered to the rows
whose coerced `Application_No` equals `k`, in original row order (pandas
`groupby` preserves the source order inside each group). -/
def groupFor (prods : List ProdRowIn) (k : String) : List ProdRowIn :=
  prods.filter (fun r => coerceKey r.app = k)

/-- The aggregated row for key `k`: each of `Form`, `Strength`, `DrugName`
is `", ".join(x.dropna())` over the group, i.e. the comma-join of all
non-missing values in row order. -/
def aggRowFor (prods : List ProdRowIn) (k : String) : AggRow :=
  { app := k
    form := joinComma ((groupFor prods k).filterMap (fun r => r.form))
    strength := joinComma ((groupFor prods k).filterMap (fun r => r.strength))
    drugName := joinComma ((groupFor prods k).filterMap (fun r => r.drugName)) }

/-- The sorted distinct coerced keys of the Products table. -/
def aggKeys (prods : List ProdRowIn) : List String :=
  sortedDistinct (prods.map (fun r => coerceKey r.app))

/-- `prods.groupby("Application_No").agg({...}).reset_index()`: one row per
distinct coerced key, in sorted key order. -/
def aggregate (prods : List ProdRowIn) : List AggRow :=
  (aggKeys prods).map (aggRowFor prods)

/-- Read an aggregated row back as a Products row (every field present), to
express re-running the aggregation on its own output. -/
def injectAgg (g : AggRow) : ProdRowIn :=
  { app := some g.app, form := some g.form, strength := some g.strength,
    drugName := some g.drugName }

/-- The `submission_type_map` replacement
(`df["Submission_Type"].replace(submission_type_map)`): a code in the map is
replaced by its label, any other value passes through unchanged. -/
def subTypeMapF (c : String) : String :=
  if c = "AP" then "Abbreviated NDA"
  else if c = "TP" then "Therapeutic"
  else if c = "ORIG" then "Original"
  else if c = "SUPPL" then "Supplemental"
  else c

/-- `str.replace(";", " / ")` on the character list of a Form value:
every literal `';'` becomes the three characters `' '`, `'/'`, `' '`. -/
def replaceSemi : List Char → List Char
  | [] => []
  | c :: t =>
    if c = ';' then ' ' :: '/' :: ' ' :: replaceSemi t
    else c :: replaceSemi t

/-- `df["Form"].fillna("").str.replace(";", " / ", regex=False)` applied to
one (possibly missing) Form value. -/
def formClean (o : Option String) : String :=
  String.mk (replaceSemi (o.getD "").data)

/-- Prepend a character to the first part of a split result. -/
def consHead (c : Char) : List (List Char) → List (List Char)
  | [] => [[c]]
  | p :: ps => (c :: p) :: ps

/-- Split a character list on the single character `';'` (Python
`s.split(";")`): `n` separators yield `n + 1` parts. -/
def splitC : List Char → List (List Char)
  | [] => [[]]
  | c :: t =>
    if c = ';' then [] :: splitC t
    else consHead c (splitC t)

/-- Split a character list on the three-character separator `" / "`
(Python `s.split(" / ")`), consuming non-overlapping occurrences left to
right. -/
def splitSlash : List Char → List (List Char)
  | [] => [[]]
  | [c] => [[c]]
  | [c, d] => [[c, d]]
  | c :: d :: e :: t =>
    if c = ' ' ∧ d = '/' ∧ e = ' ' then [] :: splitSlash t
    else consHead c (splitSlash (d :: e :: t))

/-- The Applications rows whose coerced key equals `k` (the match set of
one probe of the first left join). -/
def appMatches (apps : List AppRowIn) (k : String) : List AppRowIn :=
  apps.filter (fun a => coerceKey a.app = k)

/-- `sub.merge(apps, on="Application_No", how="left")`: every submission row
is kept; it is paired with the sponsor of each Applications row whose
coerced key matches, or with a missing sponsor when no row matches. -/
def leftJoinApps (sub : List SubRowIn) (apps : List AppRowIn) :
    List (SubRowIn × Option String) :=
  sub.flatMap (fun s =>
    if (appMatches apps (coerceKey s.app)).isEmpty then [(s, none)]
    else (appMatches apps (coerceKey s.app)).map (fun a => (s, a.sponsor)))

/-- An output row of the Merger (a row of `fda_submissions_merged.xlsx`):
`form` has been filled with `""` and had `";"` rewritten, while `sponsor`,
`strength` and `drugName` are still missing when the corresponding join
found no match. -/
structure OutRow where
  app : String
  subType : String
  subNo : String
  status : String
  date : String
  reviewPriority : String
  sponsor : Option String
  form : String
  strength : Option String
  drugName : Option String
deriving DecidableEq, Repr

/-- Assemble one output row from a submission row, its joined sponsor, and
its joined aggregated-products row (if any), applying the
`Submission_Type` replacement and the Form cleaning, which the script
applies column-wise after the merges. -/
def finalize (x : SubRowIn × Option String × Option AggRow) : OutRow :=
  { app := coerceKey x.1.app
    subType := subTypeMapF x.1.subType
    subNo := x.1.subNo
    status := x.1.status
    date := x.1.date
    reviewPriority := x.1.reviewPriority
    sponsor := x.2.1
    form := formClean (x.2.2.map (fun g => g.form))
    strength := x.2.2.map (fun g => g.strength)
    drugName := x.2.2.map (fun g => g.drugName) }

/-- The aggregated-Products rows whose key equals `k` (the match set of one
probe of the second left join). -/
def prodMatches (prods : List ProdRowIn) (k : String) : List AggRow :=
  (aggregate prods).filter (fun g => g.app = k)

/-- One probe of `df.merge(prods, on="Application_No", how="left")` followed
by the column-wise post-processing: the row of the first join is paired with
each matching aggregated-Products row, or with a missing one when no row
matches, and each pairing is assembled into an output row. -/
def joinRow (prods : List ProdRowIn) (m : SubRowIn × Option String) :
    List OutRow :=
  (if (prodMatches prods (coerceKey m.1.app)).isEmpty
   then [(m.1, m.2, (none : Option AggRow))]
   else (prodMatches prods (coerceKey m.1.app)).map
     (fun g => (m.1, m.2, some g))).map finalize

/-- The whole merge pipeline of `merge_fda_data.py` after loading: aggregate
Products, left-join Submissions with Applications, left-join the result with
the aggregated Products, then normalize `Submission_Type` and clean
`Form`. -/
def mergerRun (sub : List SubRowIn) (apps : List AppRowIn)
    (prods : List ProdRowIn) : List OutRow :=
  (leftJoinApps sub apps).flatMap (joinRow prods)

/-- The error cases of the script's `except` clauses. -/
inductive LoadError where
  | fileNotFound (msg : String)
  | parserError (msg : String)
  | keyError (msg : String)
  | unexpected (msg : String)
deriving DecidableEq, Repr

/-- The three loaded input tables. -/
structure Tables where
  sub : List SubRowIn
  apps : List AppRowIn
  prods : List ProdRowIn
deriving DecidableEq, Repr

/-- The observable outcome of one run of the script: the error message
printed by an `except` handler (if any), the contents written to the output
file (if any), and the process exit code. -/
structure RunResult where
  printedError : Option String
  written : Option (List OutRow)
  exitCode : Nat
deriving DecidableEq, Repr

/-- The message printed by each `except` handler. -/
def errMsg : LoadError → String
  | .fileNotFound m => "Error: File not found - " ++ m
  | .parserError m => "Error: Parsing issue - " ++ m
  | .keyError m => "Error: Column not found - " ++ m
  | .unexpected m => "Unexpected error: " ++ m

/-- The top-level `try`/`except` of the script: on success the merged table
is written and the script ends normally; on any failure the matching handler
prints its message, nothing is written, and the script still ends normally
(so the exit code is `0` in both cases — no handler re-raises or calls
`exit`). -/
def runScript : Except LoadError Tables → RunResult
  | .error e => { printedError := some (errMsg e), written := none, exitCode := 0 }
  | .ok t =>
    { printedError := none, written := some (mergerRun t.sub t.apps t.prods),
      exitCode := 0 }

/-- A parsed `Submission_Date` as the Dashboard sees it after
`parse_dates=["Submission_Date"]`; the claims only use its year
(`dt.year`), so only the year is retained. -/
structure SDate where
  year : Int
deriving DecidableEq, Repr

/-- A row of the merged spreadsheet as read by the Dashboard
(`pd.read_excel(..., parse_dates=["Submission_Date"])`): `date` is `none`
when `Submission_Date` is missing or did not parse to a date. -/
structure XRow where
  app : String
  subType : String
  subNo : String
  status : String
  date : Option SDate
  reviewPriority : String
  sponsor : Option String
  form : String
  strength : Option String
  drugName : Option String
deriving DecidableEq, Repr

/-- A row after the Dashboard's `load_data`. -/
structure DRow where
  app : String
  subType : String
  subNo : String
  status : String
  date : SDate
  reviewPriority : String
  sponsor : String
  form : String
  strength : Option String
  drugName : String
  year : Int
deriving DecidableEq, Repr

/-- The Dashboard's `Status` remap:
`df["Status"].map({"AP": "Approved", "TA": "Tentative Approval"}).fillna(df["Status"])`
— mapped codes get their label, any other value is kept. -/
def dashStatusMap (s : String) : String :=
  if s = "AP" then "Approved"
  else if s = "TA" then "Tentative Approval"
  else s

/-- The Dashboard's `Submission_Type` remap:
`df["Submission_Type"].map({...}).fillna(df["Submission_Type"])`. -/
def dashTypeMap (t : String) : String :=
  if t = "ORIG" then "Original"
  else if t = "SUPPL" then "Supplemental"
  else if t = "AP" then "Abbreviated NDA"
  else if t = "TP" then "Therapeutic"
  else t

/-- The Dashboard's `load_data`: drop rows whose `Submission_Date` is
missing (`dropna(subset=["Submission_Date"])`), remap `Status` and
`Submission_Type`, fill missing `Sponsor`/`DrugName` with `"Unknown"`, and
derive `Submission_Year` from the date. -/
def load_data (rows : List XRow) : List DRow :=
  rows.filterMap (fun r =>
    match r.date with
    | none => none
    | some d =>
      some { app := r.app, subType := dashTypeMap r.subType, subNo := r.subNo,
             status := dashStatusMap r.status, date := d,
             reviewPriority := r.reviewPriority,
             sponsor := r.sponsor.getD "Unknown", form := r.form,
             strength := r.strength, drugName := r.drugName.getD "Unknown",
             year := d.year })

/-- First-seen-order distinct values (`Series.unique()`), with an explicit
accumulator of values already seen. -/
def uniqueAux : List String → List String → List String
  | [], _ => []
  | a :: t, seen =>
    if a ∈ seen then uniqueAux t seen else a :: uniqueAux t (a :: seen)

/-- `Series.unique()`: the distinct values of a column in first-seen
order. -/
def uniqueFS (l : List String) : List String :=
  uniqueAux l []

/-- The Sponsor multi-select option list: `df["Sponsor"].unique()[:30]`. -/
def sponsorOptions (df : List DRow) : List String :=
  (uniqueFS (df.map (fun r => r.sponsor))).take 30

/-- The Sponsor multi-select default: `df["Sponsor"].unique()[:10]`. -/
def sponsorDefault (df : List DRow) : List String :=
  (uniqueFS (df.map (fun r => r.sponsor))).take 10

/-- The Drug Name multi-select option list: `df["DrugName"].unique()[:50]`. -/
def drugOptions (df : List DRow) : List String :=
  (uniqueFS (df.map (fun r => r.drugName))).take 50

/-- The Drug Name multi-select default: `df["DrugName"].unique()[:5]`. -/
def drugDefault (df : List DRow) : List String :=
  (uniqueFS (df.map (fun r => r.drugName))).take 5

/-- The Status multi-select default: `df["Status"].unique()` (all of them). -/
def statusDefault (df : List DRow) : List String :=
  uniqueFS (df.map (fun r => r.status))

/-- `int(df["Submission_Year"].min())` (the year slider's lower default). -/
def minYear (df : List DRow) : Int :=
  match df.map (fun r => r.year) with
  | [] => 0
  | a :: t => t.foldl min a

/-- `int(df["Submission_Year"].max())` (the year slider's upper default). -/
def maxYear (df : List DRow) : Int :=
  match df.map (fun r => r.year) with
  | [] => 0
  | a :: t => t.foldl max a

/-- The `filtered` frame under the default widget state (empty search, full
year range, all statuses selected, the default sponsor and drug
selections): all metrics, charts, the table and the CSV export are computed
from this set. -/
def defaultFiltered (df : List DRow) : List DRow :=
  df.filter (fun r =>
    decide (minYear df ≤ r.year ∧ r.year ≤ maxYear df ∧
      r.status ∈ statusDefault df ∧ r.sponsor ∈ sponsorDefault df ∧
      r.drugName ∈ drugDefault df))

theorem mem_insOrd (x s : String) (l : List String) :
    x ∈ insOrd s l ↔ x = s ∨ x ∈ l := by
  induction l with
  | nil => simp [insOrd]
  | cons a t ih =>
    simp only [insOrd]
    split_ifs with h1 h2
    · subst h1
      simp only [List.mem_cons]
      tauto
    · simp only [List.mem_cons]
    · simp only [List.mem_cons, ih]
      tauto

theorem lexLt_irrefl (l : List Char) : lexLt l l = false := by
  induction l with
  | nil => rfl
  | cons a t ih => simp [lexLt, ih]

theorem lexLt_trans {a b c : List Char} (h1 : lexLt a b = true)
    (h2 : lexLt b c = true) : lexLt a c = true := by
  induction a generalizing b c with
  | nil =>
    cases b with
    | nil => simp [lexLt] at h1
    | cons y bs =>
      cases c with
      | nil => simp [lexLt] at h2
      | cons z cs => rfl
  | cons x as ih =>
    cases b with
    | nil => simp [lexLt] at h1
    | cons y bs =>
      cases c with
      | nil => simp [lexLt] at h2
      | cons z cs =>
        by_cases hxy1 : x.toNat < y.toNat
        · by_cases hyz1 : y.toNat < z.toNat
          · have hxz : x.toNat < z.toNat := by omega
            simp [lexLt, hxz]
          · by_cases hyz2 : z.toNat < y.toNat
            · simp [lexLt, hyz1, hyz2] at h2
            · have hxz : x.toNat < z.toNat := by omega
              simp [lexLt, hxz]
        · by_cases hxy2 : y.toNat < x.toNat
          · simp [lexLt, hxy1, hxy2] at h1
          · simp only [lexLt, if_neg hxy1, if_neg hxy2] at h1
            by_cases hyz1 : y.toNat < z.toNat
            · have hxz : x.toNat < z.toNat := by omega
              simp [lexLt, hxz]
            · by_cases hyz2 : z.toNat < y.toNat
              · simp [lexLt, hyz1, hyz2] at h2
              · simp only [lexLt, if_neg hyz1, if_neg hyz2] at h2
                have hxz1 : ¬x.toNat < z.toNat := by omega
                have hxz2 : ¬z.toNat < x.toNat := by omega
                simp only [lexLt, if_neg hxz1, if_neg hxz2]
                exact ih h1 h2

theorem lexLt_total {a b : List Char} (hne : a ≠ b)
    (h : lexLt a b = false) : lexLt b a = true := by
  induction a generalizing b with
  | nil =>
    cases b with
    | nil => exact absurd rfl hne
    | cons y bs => simp [lexLt] at h
  | cons x as ih =>
    cases b with
    | nil => rfl
    | cons y bs =>
      by_cases h1 : x.toNat < y.toNat
      · simp [lexLt, h1] at h
      · by_cases h2 : y.toNat < x.toNat
        · simp [lexLt, h2]
        · have hn : x.toNat = y.toNat := by omega
          have hchar : x = y := Char.ext (UInt32.toNat.inj hn)
          subst hchar
          have htail : as ≠ bs := fun he => hne (by rw [he])
          simp only [lexLt, if_neg h1, if_neg h2] at h ⊢
          exact ih htail h

theorem strLt_trans {s t u : String} (h1 : strLt s t = true)
    (h2 : strLt t u = true) : strLt s u = true :=
  lexLt_trans h1 h2

theorem data_inj {s t : String} (h : s.data = t.data) : s = t := by
  cases s
  cases t
  exact congrArg String.mk h

theorem strLt_total {s t : String} (hne : s ≠ t) (h : strLt s t = false) :
    strLt t s = true :=
  lexLt_total (fun hd => hne (data_inj hd)) h

theorem strLt_ne {s t : String} (h : strLt s t = true) : s ≠ t := by
  intro he
  subst he
  rw [strLt, lexLt_irrefl] at h
  exact Bool.false_ne_true h

theorem pairwise_insOrd (s : String) (l : List String)
    (h : l.Pairwise (fun a b => strLt a b = true)) :
    (insOrd s l).Pairwise (fun a b => strLt a b = true) := by
  induction l with
  | nil => simp [insOrd]
  | cons a t ih =>
    rw [List.pairwise_cons] at h
    simp only [insOrd]
    split_ifs with h1 h2
    · exact List.pairwise_cons.mpr ⟨h.1, h.2⟩
    · refine List.pairwise_cons.mpr ⟨?_, List.pairwise_cons.mpr ⟨h.1, h.2⟩⟩
      intro b hb
      rcases List.mem_cons.mp hb with hb | hb
      · exact hb ▸ h2
      · exact strLt_trans h2 (h.1 b hb)
    · have h3 : strLt a s = true :=
        strLt_total h1 (Bool.not_eq_true _ ▸ h2)
      refine List.pairwise_cons.mpr ⟨?_, ih h.2⟩
      intro b hb
      rcases (mem_insOrd b s t).mp hb with hb | hb
      · exact hb ▸ h3
      · exact h.1 b hb

theorem pairwise_sortedDistinct (l : List String) :
    (sortedDistinct l).Pairwise (fun a b => strLt a b = true) := by
  induction l with
  | nil => simp [sortedDistinct]
  | cons a t ih => exact pairwise_insOrd a (sortedDistinct t) ih

theorem mem_sortedDistinct (x : String) (l : List String) :
    x ∈ sortedDistinct l ↔ x ∈ l := by
  induction l with
  | nil => simp [sortedDistinct]
  | cons a t ih =>
    simp only [sortedDistinct, mem_insOrd, ih, List.mem_cons]

theorem nodup_sortedDistinct (l : List String) : (sortedDistinct l).Nodup :=
  (pairwise_sortedDistinct l).imp (fun h => strLt_ne h)

theorem insOrd_of_lt_head (s : String) (l : List String)
    (h : ∀ b ∈ l, strLt s b = true) : insOrd s l = s :: l := by
  cases l with
  | nil => rfl
  | cons a t =>
    have h1 : strLt s a = true := h a (List.mem_cons_self a t)
    simp [insOrd, strLt_ne h1, h1]

theorem sortedDistinct_eq_self (l : List String)
    (h : l.Pairwise (fun a b => strLt a b = true)) : sortedDistinct l = l := by
  induction l with
  | nil => rfl
  | cons a t ih =>
    rw [List.pairwise_cons] at h
    simp only [sortedDistinct, ih h.2]
    exact insOrd_of_lt_head a t h.1

theorem aggregate_map_app (prods : List ProdRowIn) :
    (aggregate prods).map (fun g => g.app) = aggKeys prods := by
  rw [aggregate, List.map_map]
  exact List.map_id (aggKeys prods)

theorem nodup_aggregate_keys (prods : List ProdRowIn) :
    ((aggregate prods).map (fun g => g.app)).Nodup := by
  rw [aggregate_map_app]
  exact nodup_sortedDistinct _

theorem filter_eq_singleton {α : Type} [DecidableEq α] {l : List α} {k : α}
    (hn : l.Nodup) (hm : k ∈ l) : l.filter (fun x => x = k) = [k] := by
  induction l with
  | nil => cases hm
  | cons a t ih =>
    rw [List.nodup_cons] at hn
    rcases List.mem_cons.mp hm with h | h
    · subst h
      rw [List.filter_cons_of_pos (by simp)]
      have ht : t.filter (fun x => x = k) = [] := by
        rw [List.filter_eq_nil_iff]
        intro b hb
        simp only [decide_eq_true_eq]
        intro hbk
        exact hn.1 (hbk ▸ hb)
      rw [ht]
    · have hak : a ≠ k := fun hak => hn.1 (hak ▸ h)
      rw [List.filter_cons_of_neg (by simpa using hak), ih hn.2 h]

theorem length_flatMap_ones {α β : Type} (l : List α) (f : α → List β)
    (h : ∀ a ∈ l, (f a).length = 1) : (l.flatMap f).length = l.length := by
  induction l with
  | nil => rfl
  | cons a t ih =>
    rw [List.flatMap_cons, List.length_append, h a (List.mem_cons_self a t),
      ih (fun b hb => h b (List.mem_cons_of_mem a hb)), List.length_cons,
      Nat.add_comm]

theorem filter_length_le_one {α : Type} (l : List α) (f : α → String)
    (k : String) (h : (l.map f).Nodup) :
    (l.filter (fun x => f x = k)).length ≤ 1 := by
  induction l with
  | nil => simp
  | cons a t ih =>
    rw [List.map_cons, List.nodup_cons] at h
    by_cases hf : f a = k
    · rw [List.filter_cons_of_pos (by simpa using hf)]
      have ht : t.filter (fun x => f x = k) = [] := by
        rw [List.filter_eq_nil_iff]
        intro b hb
        simp only [decide_eq_true_eq]
        intro hbk
        exact h.1 (by
          have : f a = f b := by rw [hf, hbk]
          exact this ▸ List.mem_map_of_mem f hb)
      rw [ht]
      simp
    · rw [List.filter_cons_of_neg (by simpa using hf)]
      exact ih h.2

theorem mem_leftJoinApps_matched {sub : List SubRowIn} {apps : List AppRowIn}
    {s : SubRowIn} {a : AppRowIn} (hs : s ∈ sub) (ha : a ∈ apps)
    (hk : coerceKey a.app = coerceKey s.app) :
    (s, a.sponsor) ∈ leftJoinApps sub apps := by
  rw [leftJoinApps, List.mem_flatMap]
  refine ⟨s, hs, ?_⟩
  have hma : a ∈ appMatches apps (coerceKey s.app) :=
    List.mem_filter.mpr ⟨ha, by simpa using hk⟩
  have hne : ¬((appMatches apps (coerceKey s.app)).isEmpty = true) := by
    rw [List.isEmpty_iff]
    exact List.ne_nil_of_mem hma
  rw [if_neg hne]
  exact List.mem_map_of_mem _ hma

theorem mem_leftJoinApps_unmatched {sub : List SubRowIn}
    {apps : List AppRowIn} {s : SubRowIn} (hs : s ∈ sub)
    (h : ∀ a ∈ apps, coerceKey a.app ≠ coerceKey s.app) :
    (s, (none : Option String)) ∈ leftJoinApps sub apps := by
  rw [leftJoinApps, List.mem_flatMap]
  refine ⟨s, hs, ?_⟩
  have hnil : appMatches apps (coerceKey s.app) = [] := by
    rw [appMatches, List.filter_eq_nil_iff]
    intro a ha
    simpa using h a ha
  rw [hnil]
  simp

theorem mem_leftJoinApps_elim {sub : List SubRowIn} {apps : List AppRowIn}
    {m : SubRowIn × Option String} (hm : m ∈ leftJoinApps sub apps) :
    m.1 ∈ sub := by
  rw [leftJoinApps, List.mem_flatMap] at hm
  obtain ⟨s, hs, hmem⟩ := hm
  split at hmem
  · rw [List.mem_singleton] at hmem
    rw [hmem]
    exact hs
  · rw [List.mem_map] at hmem
    obtain ⟨a, _, rfl⟩ := hmem
    exact hs

theorem mem_mergerRun_matched {sub : List SubRowIn} {apps : List AppRowIn}
    {prods : List ProdRowIn} {m : SubRowIn × Option String} {g : AggRow}
    (hm : m ∈ leftJoinApps sub apps) (hg : g ∈ aggregate prods)
    (hk : g.app = coerceKey m.1.app) :
    finalize (m.1, m.2, some g) ∈ mergerRun sub apps prods := by
  rw [mergerRun, List.mem_flatMap]
  refine ⟨m, hm, ?_⟩
  rw [joinRow]
  have hmg : g ∈ prodMatches prods (coerceKey m.1.app) :=
    List.mem_filter.mpr ⟨hg, by simpa using hk⟩
  have hne : ¬((prodMatches prods (coerceKey m.1.app)).isEmpty = true) := by
    rw [List.isEmpty_iff]
    exact List.ne_nil_of_mem hmg
  rw [if_neg hne]
  exact List.mem_map_of_mem _ (List.mem_map_of_mem _ hmg)

theorem mem_mergerRun_unmatched {sub : List SubRowIn} {apps : List AppRowIn}
    {prods : List ProdRowIn} {m : SubRowIn × Option String}
    (hm : m ∈ leftJoinApps sub apps)
    (h : ∀ p ∈ prods, coerceKey p.app ≠ coerceKey m.1.app) :
    finalize (m.1, m.2, none) ∈ mergerRun sub apps prods := by
  rw [mergerRun, List.mem_flatMap]
  refine ⟨m, hm, ?_⟩
  rw [joinRow]
  have hnil : prodMatches prods (coerceKey m.1.app) = [] := by
    rw [prodMatches, List.filter_eq_nil_iff]
    intro g hg
    simp only [decide_eq_true_eq]
    intro hgk
    have hkeys : g.app ∈ (aggregate prods).map (fun g => g.app) :=
      List.mem_map_of_mem _ hg
    rw [aggregate_map_app, aggKeys, mem_sortedDistinct, List.mem_map] at hkeys
    obtain ⟨p, hp, hpk⟩ := hkeys
    exact h p hp (by rw [hpk, hgk])
  rw [hnil]
  simp

theorem length_joinRow (prods : List ProdRowIn)
    (m : SubRowIn × Option String) : (joinRow prods m).length = 1 := by
  rw [joinRow, List.length_map]
  have hle : (prodMatches prods (coerceKey m.1.app)).length ≤ 1 :=
    filter_length_le_one _ _ _ (nodup_aggregate_keys prods)
  by_cases he : (prodMatches prods (coerceKey m.1.app)).isEmpty = true
  · rw [if_pos he]
    rfl
  · rw [if_neg he, List.length_map]
    rw [List.isEmpty_iff] at he
    have hpos := List.length_pos.mpr he
    omega

theorem length_leftJoinApps {sub : List SubRowIn} {apps : List AppRowIn}
    (h : (apps.map (fun a => coerceKey a.app)).Nodup) :
    (leftJoinApps sub apps).length = sub.length := by
  rw [leftJoinApps]
  apply length_flatMap_ones
  intro s _
  have hle : (appMatches apps (coerceKey s.app)).length ≤ 1 :=
    filter_length_le_one _ _ _ h
  by_cases he : (appMatches apps (coerceKey s.app)).isEmpty = true
  · rw [if_pos he]
    rfl
  · rw [if_neg he, List.length_map]
    rw [List.isEmpty_iff] at he
    have hpos := List.length_pos.mpr he
    omega

theorem mem_mergerRun_elim {sub : List SubRowIn} {apps : List AppRowIn}
    {prods : List ProdRowIn} {r : OutRow}
    (hr : r ∈ mergerRun sub apps prods) :
    ∃ s sp og, s ∈ sub ∧ r = finalize (s, sp, og) := by
  rw [mergerRun, List.mem_flatMap] at hr
  obtain ⟨m, hm, hmem⟩ := hr
  have hms : m.1 ∈ sub := mem_leftJoinApps_elim hm
  rw [joinRow, List.mem_map] at hmem
  obtain ⟨x, hx, rfl⟩ := hmem
  split at hx
  · rw [List.mem_singleton] at hx
    exact ⟨m.1, m.2, none, hms, by rw [hx]⟩
  · rw [List.mem_map] at hx
    obtain ⟨g, _, rfl⟩ := hx
    exact ⟨m.1, m.2, some g, hms, rfl⟩

/-- C1: for every run of the Merger in which the coerced `Application_No`
key is unique in Applications, the output has exactly one row per input
Submissions row — the left join with Applications and the left join with
the aggregated Products (whose keys are unique by construction) neither
drop nor duplicate any submission row. -/
theorem c1_row_count_preserved (sub : List SubRowIn) (apps : List AppRowIn)
    (prods : List ProdRowIn)
    (h : (apps.map (fun a => coerceKey a.app)).Nodup) :
    (mergerRun sub apps prods).length = sub.length := by
  rw [mergerRun,
    length_flatMap_ones _ _ (fun m _ => length_joinRow prods m)]
  exact length_leftJoinApps h

/-- Witness for C1 at a concrete run: two submission rows, a unique-keyed
Applications table, and a Products table; the output has two rows. -/
theorem c1_row_count_preserved_witness :
    (mergerRun
      [⟨some "1", "ORIG", "1", "AP", "d1", "S"⟩,
       ⟨some "2", "SUPPL", "2", "TA", "d2", "P"⟩]
      [⟨some "1", some "Acme"⟩]
      [⟨some "1", some "F", some "St", some "D"⟩]).length =
    ([⟨some "1", "ORIG", "1", "AP", "d1", "S"⟩,
      ⟨some "2", "SUPPL", "2", "TA", "d2", "P"⟩] : List SubRowIn).length :=
  c1_row_count_preserved _ _ _ (by decide)

theorem joinComma_singleton (s : String) : joinComma [s] = s := rfl

theorem aggKeys_inject (prods : List ProdRowIn) :
    aggKeys ((aggregate prods).map injectAgg) = aggKeys prods := by
  rw [aggKeys, List.map_map]
  have h1 : ((fun r => coerceKey r.app) ∘ injectAgg) =
      (fun g : AggRow => g.app) := rfl
  rw [h1, aggregate_map_app]
  exact sortedDistinct_eq_self _ (pairwise_sortedDistinct _)

theorem groupFor_inject (prods : List ProdRowIn) (k : String)
    (hk : k ∈ aggKeys prods) :
    groupFor ((aggregate prods).map injectAgg) k =
      [injectAgg (aggRowFor prods k)] := by
  rw [groupFor, aggregate, List.map_map, List.filter_map]
  have h1 : ((fun r => decide (coerceKey r.app = k)) ∘
      (injectAgg ∘ aggRowFor prods)) = fun x => decide (x = k) := rfl
  have hn : (aggKeys prods).Nodup := nodup_sortedDistinct _
  rw [h1, filter_eq_singleton hn hk]
  rfl

theorem aggRowFor_inject (prods : List ProdRowIn) (k : String)
    (hk : k ∈ aggKeys prods) :
    aggRowFor ((aggregate prods).map injectAgg) k = aggRowFor prods k := by
  conv_lhs => rw [aggRowFor]
  rw [groupFor_inject prods k hk]
  simp only [injectAgg, List.filterMap_cons, List.filterMap_nil,
    joinComma_singleton]
  rfl

/-- C7 counterexample: a Products table that already has exactly one row per
`Application_No` ("B" then "A", every field present) is NOT returned
unchanged by the aggregation — `groupby` re-orders the rows by sorted key,
so the output is the "A" row first. -/
theorem c7_counterexample :
    aggregate (([⟨"B", "f", "s", "d"⟩, ⟨"A", "f", "s", "d"⟩] :
      List AggRow).map injectAgg) ≠
    [⟨"B", "f", "s", "d"⟩, ⟨"A", "f", "s", "d"⟩] := by decide

/-- C7 (amended): the aggregation is idempotent in the sense that
re-applying it to its own output (each field read back as a present value)
returns that output unchanged; a general one-row-per-key Products table is
only returned unchanged if its rows are already in sorted key order and no
field is missing. -/
theorem c7_aggregate_idempotent (prods : List ProdRowIn) :
    aggregate ((aggregate prods).map injectAgg) = aggregate prods := by
  rw [aggregate, aggKeys_inject]
  conv_rhs => rw [aggregate]
  exact List.map_congr_left (fun k hk => aggRowFor_inject prods k hk)

/-- C2 counterexample: for key "1" with the value "A" occurring twice in
`Form` (and likewise for `Strength`/`DrugName`), the aggregation produces
"A, A" — the duplicate is repeated, not collapsed to the distinct value
"A" as the claim states. -/
theorem c2_counterexample :
    aggregate [⟨some "1", some "A", some "S", some "D"⟩,
      ⟨some "1", some "A", some "S", some "D"⟩] =
      [⟨"1", "A, A", "S, S", "D, D"⟩] ∧ "A, A" ≠ "A" := by decide

/-- C2 (amended): for every key of the Products table, the aggregation
produces, for each of `Form`, `Strength` and `DrugName`, the concatenation
joined with ", " of ALL non-missing values observed for that key in row
order — duplicate values are repeated, not collapsed. -/
theorem c2_aggregation_concat (prods : List ProdRowIn) (k : String)
    (hk : k ∈ prods.map (fun r => coerceKey r.app)) :
    ({ app := k,
       form := joinComma
         ((prods.filter (fun r => coerceKey r.app = k)).filterMap
           (fun r => r.form)),
       strength := joinComma
         ((prods.filter (fun r => coerceKey r.app = k)).filterMap
           (fun r => r.strength)),
       drugName := joinComma
         ((prods.filter (fun r => coerceKey r.app = k)).filterMap
           (fun r => r.drugName)) } : AggRow) ∈ aggregate prods := by
  have hk2 : k ∈ aggKeys prods := by
    rw [aggKeys, mem_sortedDistinct]
    exact hk
  exact List.mem_map_of_mem (aggRowFor prods) hk2

/-- Witness for C2 at a concrete input: key "1" occurs (twice) in the
table, and the corresponding all-values row is in the aggregate. -/
theorem c2_aggregation_concat_witness :
    ({ app := "1",
       form := joinComma
         ((([⟨some "1", some "A", some "S", some "D"⟩,
             ⟨some "1", some "A", some "S", some "D"⟩] :
            List ProdRowIn).filter
             (fun r => coerceKey r.app = "1")).filterMap (fun r => r.form)),
       strength := joinComma
         ((([⟨some "1", some "A", some "S", some "D"⟩,
             ⟨some "1", some "A", some "S", some "D"⟩] :
            List ProdRowIn).filter
             (fun r => coerceKey r.app = "1")).filterMap
           (fun r => r.strength)),
       drugName := joinComma
         ((([⟨some "1", some "A", some "S", some "D"⟩,
             ⟨some "1", some "A", some "S", some "D"⟩] :
            List ProdRowIn).filter
             (fun r => coerceKey r.app = "1")).filterMap
           (fun r => r.drugName)) } : AggRow) ∈
      aggregate [⟨some "1", some "A", some "S", some "D"⟩,
        ⟨some "1", some "A", some "S", some "D"⟩] :=
  c2_aggregation_concat _ "1" (by decide)

/-- C4 counterexample: a submission with key "1" and no match in
Applications or Products yields an output row whose `Sponsor`, `Strength`
and `DrugName` are missing values (`none`), not empty strings — only `Form`
is the empty string, contrary to the claim that all of them are empty
strings rather than missing values. -/
theorem c4_counterexample :
    mergerRun [⟨some "1", "ORIG", "1", "AP", "d", "S"⟩] [] [] =
      [⟨"1", "Original", "1", "AP", "d", "S", none, "", none, none⟩] := by
  decide

/-- C4 (amended): a submission row whose key matches no Products row is
still present in the output; its `Form` is the empty string (the only field
the Merger fills), while `Strength` and `DrugName` remain missing values,
and with no Applications match either, `Sponsor` is also a missing value,
not an empty string. -/
theorem c4_unmatched_row (sub : List SubRowIn) (apps : List AppRowIn)
    (prods : List ProdRowIn) (s : SubRowIn) (hs : s ∈ sub)
    (ha : ∀ a ∈ apps, coerceKey a.app ≠ coerceKey s.app)
    (hp : ∀ p ∈ prods, coerceKey p.app ≠ coerceKey s.app) :
    ({ app := coerceKey s.app, subType := subTypeMapF s.subType,
       subNo := s.subNo, status := s.status, date := s.date,
       reviewPriority := s.reviewPriority, sponsor := none, form := "",
       strength := none, drugName := none } : OutRow) ∈
      mergerRun sub apps prods := by
  have hm := mem_leftJoinApps_unmatched hs ha
  exact mem_mergerRun_unmatched hm hp

/-- Witness for C4 at a concrete run with a key absent from Applications
and Products. -/
theorem c4_unmatched_row_witness :
    ({ app := "7", subType := "Original", subNo := "1", status := "AP",
       date := "d", reviewPriority := "S", sponsor := none, form := "",
       strength := none, drugName := none } : OutRow) ∈
      mergerRun [⟨some "7", "ORIG", "1", "AP", "d", "S"⟩]
        [⟨some "8", some "Acme"⟩] [⟨some "9", some "F", some "St", some "D"⟩] :=
  c4_unmatched_row _ _ _ ⟨some "7", "ORIG", "1", "AP", "d", "S"⟩
    (by decide) (by decide) (by decide)

/-- C5: every Merger output row carries `Submission_Type` equal to the
`submission_type_map` image of its input code and `Status` equal to the
unchanged input status; the map sends AP/TP/ORIG/SUPPL to their labels and
leaves any other code unchanged; the Status code "AP" is mapped to
"Approved" only by the Dashboard's Status remap, which is distinct from the
Merger's Submission_Type remap (which sends "AP" to "Abbreviated NDA"). -/
theorem c5_subtype_map_status_passthrough (sub : List SubRowIn)
    (apps : List AppRowIn) (prods : List ProdRowIn) (r : OutRow) (c : String)
    (hr : r ∈ mergerRun sub apps prods) (hc1 : c ≠ "AP") (hc2 : c ≠ "TP")
    (hc3 : c ≠ "ORIG") (hc4 : c ≠ "SUPPL") :
    (∃ s ∈ sub, r.subType = subTypeMapF s.subType ∧ r.status = s.status) ∧
    subTypeMapF "AP" = "Abbreviated NDA" ∧ subTypeMapF "TP" = "Therapeutic" ∧
    subTypeMapF "ORIG" = "Original" ∧ subTypeMapF "SUPPL" = "Supplemental" ∧
    subTypeMapF c = c ∧
    dashStatusMap "AP" = "Approved" ∧ subTypeMapF "AP" ≠ "Approved" := by
  refine ⟨?_, rfl, rfl, rfl, rfl, ?_, rfl, by decide⟩
  · obtain ⟨s, sp, og, hs, rfl⟩ := mem_mergerRun_elim hr
    exact ⟨s, hs, rfl, rfl⟩
  · simp [subTypeMapF, hc1, hc2, hc3, hc4]

/-- Witness for C5 at a concrete run (one submission whose type code is
"SUPPL" and whose status is "AP") and the unmapped code "REVIEW". -/
theorem c5_subtype_map_status_passthrough_witness :
    (∃ s ∈ ([⟨some "1", "SUPPL", "1", "AP", "d", "S"⟩] : List SubRowIn),
      (⟨"1", "Supplemental", "1", "AP", "d", "S", none, "", none, none⟩ :
        OutRow).subType = subTypeMapF s.subType ∧
      (⟨"1", "Supplemental", "1", "AP", "d", "S", none, "", none,
        none⟩ : OutRow).status = s.status) ∧
    subTypeMapF "AP" = "Abbreviated NDA" ∧ subTypeMapF "TP" = "Therapeutic" ∧
    subTypeMapF "ORIG" = "Original" ∧ subTypeMapF "SUPPL" = "Supplemental" ∧
    subTypeMapF "REVIEW" = "REVIEW" ∧
    dashStatusMap "AP" = "Approved" ∧ subTypeMapF "AP" ≠ "Approved" :=
  c5_subtype_map_status_passthrough
    [⟨some "1", "SUPPL", "1", "AP", "d", "S"⟩] [] [] _ "REVIEW"
    (by decide) (by decide) (by decide) (by decide) (by decide)

/-- C10: the `astype(str)` coercion turns a missing `Application_No` into
the literal string "nan"; a submission row with a missing key therefore
shares the key "nan" with every Applications row and every aggregated
Products row whose key was also missing, and is joined to them rather than
treated as unmatched. -/
theorem c10_nan_key_joins (sub : List SubRowIn) (apps : List AppRowIn)
    (prods : List ProdRowIn) (s : SubRowIn) (a : AppRowIn) (p : ProdRowIn)
    (hs : s ∈ sub) (hsk : s.app = none) (ha : a ∈ apps) (hak : a.app = none)
    (hp : p ∈ prods) (hpk : p.app = none) :
    coerceKey s.app = "nan" ∧ coerceKey a.app = "nan" ∧
    coerceKey p.app = "nan" ∧
    ∃ r ∈ mergerRun sub apps prods, r.app = "nan" ∧ r.sponsor = a.sponsor ∧
      r.strength = some (aggRowFor prods "nan").strength := by
  have hks : coerceKey s.app = "nan" := by rw [hsk]; rfl
  have hka : coerceKey a.app = "nan" := by rw [hak]; rfl
  have hkp : coerceKey p.app = "nan" := by rw [hpk]; rfl
  refine ⟨hks, hka, hkp, ?_⟩
  have hm : (s, a.sponsor) ∈ leftJoinApps sub apps :=
    mem_leftJoinApps_matched hs ha (by rw [hka, hks])
  have hg : aggRowFor prods "nan" ∈ aggregate prods := by
    apply List.mem_map_of_mem
    rw [aggKeys, mem_sortedDistinct, List.mem_map]
    exact ⟨p, hp, hkp⟩
  have hr := mem_mergerRun_matched hm hg hks.symm
  exact ⟨finalize (s, a.sponsor, some (aggRowFor prods "nan")), hr, hks,
    rfl, rfl⟩

/-- Witness for C10 at a concrete run in which all three tables have a row
with a missing key: the output row carries key "nan", Acme's sponsor, and
the aggregated strength of the "nan" product group. -/
theorem c10_nan_key_joins_witness :
    coerceKey (none : Option String) = "nan" ∧
    coerceKey (none : Option String) = "nan" ∧
    coerceKey (none : Option String) = "nan" ∧
    ∃ r ∈ mergerRun [⟨none, "ORIG", "1", "AP", "d", "S"⟩]
        [⟨none, some "Acme"⟩] [⟨none, some "F", some "St", some "D"⟩],
      r.app = "nan" ∧ r.sponsor = some "Acme" ∧
      r.strength = some (aggRowFor
        [⟨none, some "F", some "St", some "D"⟩] "nan").strength :=
  c10_nan_key_joins [⟨none, "ORIG", "1", "AP", "d", "S"⟩]
    [⟨none, some "Acme"⟩] [⟨none, some "F", some "St", some "D"⟩]
    ⟨none, "ORIG", "1", "AP", "d", "S"⟩ ⟨none, some "Acme"⟩
    ⟨none, some "F", some "St", some "D"⟩
    (by decide) rfl (by decide) rfl (by decide) rfl

/-- C3 counterexample: a run that fails (here with a FileNotFound error)
exits with code 0, exactly like a successful run — because every exception
is caught and merely printed, the exit code does NOT reflect the failure
through uncaught-exception behaviour as the claim states. -/
theorem c3_counterexample :
    (runScript (.error (.fileNotFound "Submissions.txt"))).exitCode = 0 ∧
    (runScript (.ok ⟨[], [], []⟩)).exitCode = 0 := ⟨rfl, rfl⟩

/-- C3 (amended): every failing run is caught at the outermost scope, the
matching handler prints its descriptive message, nothing is written to the
output file (a pre-existing output file is left untouched) — but the
process then ends normally, with the same exit code 0 as a successful run,
so the exit code does not reflect the failure. -/
theorem c3_failure_handling (e : LoadError) (t : Tables) :
    (runScript (.error e)).printedError = some (errMsg e) ∧
    (runScript (.error e)).written = none ∧
    (runScript (.error e)).exitCode = (runScript (.ok t)).exitCode :=
  ⟨rfl, rfl, rfl⟩

theorem replaceSemi_head_ne_slash (l : List Char) (h : '/' ∉ l) :
    ∀ r, replaceSemi l ≠ '/' :: r := by
  cases l with
  | nil =>
    intro r hr
    simp [replaceSemi] at hr
  | cons a t =>
    intro r hr
    by_cases ha : a = ';'
    · simp only [replaceSemi, if_pos ha] at hr
      injection hr with h1 h2
      exact absurd h1 (by decide)
    · simp only [replaceSemi, if_neg ha] at hr
      injection hr with h1 h2
      rw [List.mem_cons] at h
      exact h (Or.inl h1.symm)

theorem splitSlash_cons (c : Char) (l : List Char)
    (h : c ≠ ' ' ∨ ∀ r, l ≠ '/' :: r) :
    splitSlash (c :: l) = consHead c (splitSlash l) := by
  cases l with
  | nil => rfl
  | cons d t =>
    cases t with
    | nil => rfl
    | cons e t2 =>
      have hcond : ¬(c = ' ' ∧ d = '/' ∧ e = ' ') := by
        rcases h with h | h
        · exact fun hc => h hc.1
        · exact fun hc => h (e :: t2) (by rw [hc.2.1])
      simp only [splitSlash, if_neg hcond]

theorem splitSlash_replaceSemi (l : List Char) (h : '/' ∉ l) :
    splitSlash (replaceSemi l) = splitC l := by
  induction l with
  | nil => rfl
  | cons a t ih =>
    have hmem : '/' ∉ t := fun ht => h (List.mem_cons_of_mem a ht)
    by_cases ha : a = ';'
    · subst ha
      have hrep : replaceSemi (';' :: t) =
          ' ' :: '/' :: ' ' :: replaceSemi t := by
        simp [replaceSemi]
      rw [hrep, splitSlash, if_pos ⟨rfl, rfl, rfl⟩, ih hmem]
      simp [splitC]
    · have hrep : replaceSemi (a :: t) = a :: replaceSemi t := by
        simp [replaceSemi, ha]
      rw [hrep,
        splitSlash_cons a (replaceSemi t)
          (Or.inr (replaceSemi_head_ne_slash t hmem)),
        ih hmem]
      simp [splitC, ha]

/-- C6 counterexample: for the Form value "A / B;C" — which already
contains the string " / " — splitting the input on ";" yields 2 components
but splitting the rewritten output on " / " yields 3, so the claimed
count-preservation fails. -/
theorem c6_counterexample :
    (splitSlash (formClean (some "A / B;C")).data).length ≠
      (splitC ("A / B;C").data).length := by decide

/-- C6 (amended): a missing Form becomes the empty string, and each literal
";" is replaced by " / "; for every Form value that contains no "/"
character, splitting the output on " / " yields exactly as many components
as splitting the input on ";" — a pre-existing "/" in the value (as in
"A / B;C") can create additional components. -/
theorem c6_form_split_count (f : String) (h : '/' ∉ f.data) :
    formClean none = "" ∧
    (splitSlash (formClean (some f)).data).length =
      (splitC f.data).length := by
  refine ⟨rfl, ?_⟩
  have hd : (formClean (some f)).data = replaceSemi f.data := rfl
  rw [hd, splitSlash_replaceSemi f.data h]

/-- Witness for C6 at the slash-free Form value "TABLET;ORAL". -/
theorem c6_form_split_count_witness :
    formClean none = "" ∧
    (splitSlash (formClean (some "TABLET;ORAL")).data).length =
      (splitC ("TABLET;ORAL").data).length :=
  c6_form_split_count "TABLET;ORAL" (by decide)

theorem length_load_data (rows : List XRow) :
    (load_data rows).length =
      (rows.filter (fun r => r.date.isSome)).length := by
  induction rows with
  | nil => rfl
  | cons r t ih =>
    rw [load_data] at ih ⊢
    cases hr : r.date with
    | none =>
      rw [List.filterMap_cons, List.filter_cons]
      simp only [hr, Option.isSome_none]
      simpa using ih
    | some dt =>
      rw [List.filterMap_cons, List.filter_cons]
      simp only [hr, Option.isSome_some]
      simp only [List.length_cons, if_pos rfl]
      rw [ih]
      simp

/-- C8 counterexample: a row with a valid date and Submission_Type "ORIG"
has that field rewritten to "Original" by `load_data` — contradicting the
claim that, besides the Status remap, the Unknown fills and the derived
year, all other fields are kept: the load step also remaps
Submission_Type. -/
theorem c8_counterexample :
    load_data [⟨"1", "ORIG", "1", "AP", some ⟨2020⟩, "S", some "Acme", "F",
      some "St", some "D"⟩] =
      [⟨"1", "Original", "1", "Approved", ⟨2020⟩, "S", "Acme", "F",
        some "St", "D", 2020⟩] ∧ "Original" ≠ "ORIG" := by decide

/-- C8 (amended): `load_data` discards exactly the rows whose
`Submission_Date` is missing or unparseable, and every surviving row has
Status mapped by {AP → Approved, TA → Tentative Approval} (others kept),
Submission_Type additionally mapped by {ORIG → Original, SUPPL →
Supplemental, AP → Abbreviated NDA, TP → Therapeutic} (others kept),
missing Sponsor and DrugName replaced by "Unknown", Submission_Year set to
the year of the date, and every other field copied unchanged. -/
theorem c8_load_contract (rows : List XRow) (d : DRow)
    (hd : d ∈ load_data rows) :
    (load_data rows).length =
      (rows.filter (fun r => r.date.isSome)).length ∧
    ∃ r ∈ rows, ∃ dt, r.date = some dt ∧
      d = { app := r.app, subType := dashTypeMap r.subType, subNo := r.subNo,
            status := dashStatusMap r.status, date := dt,
            reviewPriority := r.reviewPriority,
            sponsor := r.sponsor.getD "Unknown", form := r.form,
            strength := r.strength, drugName := r.drugName.getD "Unknown",
            year := dt.year } := by
  refine ⟨length_load_data rows, ?_⟩
  rw [load_data, List.mem_filterMap] at hd
  obtain ⟨r, hr, hfr⟩ := hd
  cases hrd : r.date with
  | none =>
    rw [hrd] at hfr
    simp at hfr
  | some dt =>
    rw [hrd] at hfr
    refine ⟨r, hr, dt, hrd, ?_⟩
    simp only [Option.some.injEq] at hfr
    exact hfr.symm

/-- Witness for C8 at a concrete two-row table (one valid date, one missing
date): one row survives, with both remaps, the Unknown fill and the derived
year applied. -/
theorem c8_load_contract_witness :
    (load_data
      [⟨"1", "ORIG", "1", "AP", some ⟨2020⟩, "S", some "Acme", "F",
        some "St", some "D"⟩,
       ⟨"2", "SUPPL", "2", "TA", none, "P", none, "G", none, none⟩]).length =
      (([⟨"1", "ORIG", "1", "AP", some ⟨2020⟩, "S", some "Acme", "F",
          some "St", some "D"⟩,
         ⟨"2", "SUPPL", "2", "TA", none, "P", none, "G", none, none⟩] :
        List XRow).filter (fun r => r.date.isSome)).length ∧
    ∃ r ∈ ([⟨"1", "ORIG", "1", "AP", some ⟨2020⟩, "S", some "Acme", "F",
        some "St", some "D"⟩,
       ⟨"2", "SUPPL", "2", "TA", none, "P", none, "G", none, none⟩] :
        List XRow), ∃ dt, r.date = some dt ∧
      (⟨"1", "Original", "1", "Approved", ⟨2020⟩, "S", "Acme", "F",
        some "St", "D", 2020⟩ : DRow) =
      { app := r.app, subType := dashTypeMap r.subType, subNo := r.subNo,
        status := dashStatusMap r.status, date := dt,
        reviewPriority := r.reviewPriority,
        sponsor := r.sponsor.getD "Unknown", form := r.form,
        strength := r.strength, drugName := r.drugName.getD "Unknown",
        year := dt.year } :=
  c8_load_contract _ _ (by decide)

/-- C9: the Sponsor multi-select offers at most the first 30 distinct
sponsors with the first 10 selected by default, and the Drug Name
multi-select offers at most the first 50 distinct drugs with the first 5
selected by default; under the default selections any row whose Sponsor is
outside the default sponsor selection or whose DrugName is outside the
default drug selection is excluded from the filtered set — hence from all
metrics, charts, the table and the CSV export, which are computed from
it. -/
theorem c9_default_filter_truncates (df : List DRow) (r : DRow)
    (_hr : r ∈ df)
    (h : r.sponsor ∉ sponsorDefault df ∨ r.drugName ∉ drugDefault df) :
    r ∉ defaultFiltered df ∧
    (sponsorOptions df).length ≤ 30 ∧ (sponsorDefault df).length ≤ 10 ∧
    (drugOptions df).length ≤ 50 ∧ (drugDefault df).length ≤ 5 := by
  refine ⟨?_, List.length_take_le _ _, List.length_take_le _ _,
    List.length_take_le _ _, List.length_take_le _ _⟩
  intro hmem
  rw [defaultFiltered, List.mem_filter] at hmem
  have hp := hmem.2
  rw [decide_eq_true_eq] at hp
  rcases h with h | h
  · exact h hp.2.2.2.1
  · exact h hp.2.2.2.2

/-- Witness for C9 at a concrete table of six rows sharing one sponsor but
carrying six distinct drug names: the sixth drug is outside the default
(first-5) drug selection, so its row is excluded from the filtered set. -/
theorem c9_default_filter_truncates_witness :
    (⟨"6", "Original", "1", "Approved", ⟨2020⟩, "S", "Sp", "F", none,
      "D6", 2020⟩ : DRow) ∉ defaultFiltered
      [⟨"1", "Original", "1", "Approved", ⟨2020⟩, "S", "Sp", "F", none,
        "D1", 2020⟩,
       ⟨"2", "Original", "1", "Approved", ⟨2020⟩, "S", "Sp", "F", none,
        "D2", 2020⟩,
       ⟨"3", "Original", "1", "Approved", ⟨2020⟩, "S", "Sp", "F", none,
        "D3", 2020⟩,
       ⟨"4", "Original", "1", "Approved", ⟨2020⟩, "S", "Sp", "F", none,
        "D4", 2020⟩,
       ⟨"5", "Original", "1", "Approved", ⟨2020⟩, "S", "Sp", "F", none,
        "D5", 2020⟩,
       ⟨"6", "Original", "1", "Approved", ⟨2020⟩, "S", "Sp", "F", none,
        "D6", 2020⟩] ∧
    (sponsorOptions
      [⟨"1", "Original", "1", "Approved", ⟨2020⟩, "S", "Sp", "F", none,
        "D1", 2020⟩,
       ⟨"2", "Original", "1", "Approved", ⟨2020⟩, "S", "Sp", "F", none,
        "D2", 2020⟩,
       ⟨"3", "Original", "1", "Approved", ⟨2020⟩, "S", "Sp", "F", none,
        "D3", 2020⟩,
       ⟨"4", "Original", "1", "Approved", ⟨2020⟩, "S", "Sp", "F", none,
        "D4", 2020⟩,
       ⟨"5", "Original", "1", "Approved", ⟨2020⟩, "S", "Sp", "F", none,
        "D5", 2020⟩,
       ⟨"6", "Original", "1", "Approved", ⟨2020⟩, "S", "Sp", "F", none,
        "D6", 2020⟩]).length ≤ 30 ∧
    (sponsorDefault
      [⟨"1", "Original", "1", "Approved", ⟨2020⟩, "S", "Sp", "F", none,
        "D1", 2020⟩,
       ⟨"2", "Original", "1", "Approved", ⟨2020⟩, "S", "Sp", "F", none,
        "D2", 2020⟩,
       ⟨"3", "Original", "1", "Approved", ⟨2020⟩, "S", "Sp", "F", none,
        "D3", 2020⟩,
       ⟨"4", "Original", "1", "Approved", ⟨2020⟩, "S", "Sp", "F", none,
        "D4", 2020⟩,
       ⟨"5", "Original", "1", "Approved", ⟨2020⟩, "S", "Sp", "F", none,
        "D5", 2020⟩,
       ⟨"6", "Original", "1", "Approved", ⟨2020⟩, "S", "Sp", "F", none,
        "D6", 2020⟩]).length ≤ 10 ∧
    (drugOptions
      [⟨"1", "Original", "1", "Approved", ⟨2020⟩, "S", "Sp", "F", none,
        "D1", 2020⟩,
       ⟨"2", "Original", "1", "Approved", ⟨2020⟩, "S", "Sp", "F", none,
        "D2", 2020⟩,
       ⟨"3", "Original", "1", "Approved", ⟨2020⟩, "S", "Sp", "F", none,
        "D3", 2020⟩,
       ⟨"4", "Original", "1", "Approved", ⟨2020⟩, "S", "Sp", "F", none,
        "D4", 2020⟩,
       ⟨"5", "Original", "1", "Approved", ⟨2020⟩, "S", "Sp", "F", none,
        "D5", 2020⟩,
       ⟨"6", "Original", "1", "Approved", ⟨2020⟩, "S", "Sp", "F", none,
        "D6", 2020⟩]).length ≤ 50 ∧
    (drugDefault
      [⟨"1", "Original", "1", "Approved", ⟨2020⟩, "S", "Sp", "F", none,
        "D1", 2020⟩,
       ⟨"2", "Original", "1", "Approved", ⟨2020⟩, "S", "Sp", "F", none,
        "D2", 2020⟩,
       ⟨"3", "Original", "1", "Approved", ⟨2020⟩, "S", "Sp", "F", none,
        "D3", 2020⟩,
       ⟨"4", "Original", "1", "Approved", ⟨2020⟩, "S", "Sp", "F", none,
        "D4", 2020⟩,
       ⟨"5", "Original", "1", "Approved", ⟨2020⟩, "S", "Sp", "F", none,
        "D5", 2020⟩,
       ⟨"6", "Original", "1", "Approved", ⟨2020⟩, "S", "Sp", "F", none,
        "D6", 2020⟩]).length ≤ 5 :=
  c9_default_filter_truncates _ _ (by decide) (Or.inr (by decide))
